import Mathlib

/-!
Shallow embedding of src/AMDGPUAttributePass.cpp.

The pass scans a module: for every function it resolves the two OpenMP
runtime marker declarations (kmpc target init and deinit) and decides
whether the function is a kernel entry by walking the use-edges of each
marker declaration, looking for a user that is an instruction whose
enclosing function is the scanned one. Classified functions are collected
in a pointer set, then each member gets a fixed function attribute added
and one diagnostic line printed. Two adapters (new pass manager run, legacy
runOnModule) both call the shared routine named visitor.
-/

set_option maxRecDepth 4096

namespace AMDGPU

/-- One of the two well-known runtime marker functions the pass resolves:
OMPRTL kmpc target init, or OMPRTL kmpc target deinit. -/
inductive Marker
  | init
  | deinit
deriving DecidableEq, Repr

/-- The user of one use-edge of a marker declaration. It is either an
instruction inside some function of the unit, recorded with the id of the
enclosing function and with whether this use is the callee operand of a
direct call of the marker, or a user that is not an instruction (for
example a constant expression or a global value). The pass inspects only
whether the user is an instruction and which function encloses it; the
isCall field is part of the IR data model and is never read by the pass. -/
inductive User
  | instr (parent : Nat) (isCall : Bool)
  | nonInstr
deriving DecidableEq, Repr

/-- A function of the compilation unit: its identity (modelling the
pointer, unique in a real unit), its name (unique in a real unit, used only
for diagnostics), its attribute set (LLVM attribute lists hold each kind at
most once; modelled as a duplicate-free list of kinds), and the ids of the
unit functions it directly calls (part of the IR, never read by the
pass). -/
structure Func where
  id : Nat
  name : String
  attrs : List String
  calls : List Nat
deriving DecidableEq, Repr

/-- A compilation unit: its functions in stored order, the use-edges of the
resolved kernel-init marker declaration, the use-edges of the resolved
kernel-deinit marker declaration, and the runtime marker declarations
present in the unit. The marker declarations are themselves nodes of the
function list of the real unit; the model keeps them apart in decls, and
functions holds the remaining functions (defined or merely declared) in
stored order. -/
@[ext]
structure Module where
  functions : List Func
  initUses : List User
  deinitUses : List User
  decls : List Marker
deriving DecidableEq, Repr

/-- OMPBuilder getOrCreateRuntimeFunction: returns the canonical
declaration of the requested marker, creating it (appending it to the
declaration list of the unit) when it is absent. Creating a declaration
gives it no uses. -/
def getOrCreateRuntimeFunction (ds : List Marker) (m : Marker) :
    Marker × List Marker :=
  (m, if m ∈ ds then ds else ds ++ [m])

/-- The two resolutions performed at the top of the IsKernelEntry closure:
kernel-init first, then kernel-deinit; only the declaration-list effect. -/
def resolveMarkers (ds : List Marker) : List Marker :=
  (getOrCreateRuntimeFunction
    (getOrCreateRuntimeFunction ds Marker.init).2 Marker.deinit).2

/-- One use-edge loop of IsKernelEntry: walk the use-edges of a marker
declaration and report whether some user is an instruction whose enclosing
function has the given id. The C++ loop breaks at the first hit; List.any
has the same short-circuit and the same value. -/
def hasInstrUse (uses : List User) (fid : Nat) : Bool :=
  uses.any fun u =>
    match u with
    | User.instr p _ => p == fid
    | User.nonInstr => false

/-- IsKernelEntry: the classification value of the closure for function F.
It resolves both markers (modelled separately by resolveMarkers and
scanTrace, since resolution does not change any use-edge), sets
CallsTargetInit when some use-edge of kernel-init has an instruction user
inside F, sets CallsTargetDeinit likewise for kernel-deinit, and returns
the conjunction of the two flags. -/
def IsKernelEntry (M : Module) (F : Func) : Bool :=
  hasInstrUse M.initUses F.id && hasInstrUse M.deinitUses F.id

/-- The nodes the scan loop visits. The loop ranges over the function list
of the unit, which holds the marker declarations besides the functions of
the field functions. A marker absent at loop start is created by
getOrCreateRuntimeFunction during the first iteration and its node is
appended to the list before the sentinel, so the loop visits it as well;
after the first iteration both markers exist and nothing more is appended.
The visited nodes are therefore the functions plus one node per marker
declaration of the final declaration list, whenever any node is visited at
all (with no functions and no marker declarations the loop body never
runs). A marker declaration owns no instructions, so its classification is
constantly false and only the resolution side effect of visiting it
remains; no observable of the pass depends on where the declaration nodes
sit in the stored order, so the model lists them after the functions. -/
def scanList (M : Module) : List (Func ⊕ Marker) :=
  match M.functions, M.decls with
  | [], [] => []
  | _, _ => (M.functions.map Sum.inl) ++ ((resolveMarkers M.decls).map Sum.inr)

/-- The declaration list after the scan loop: every visited node runs the
classification closure once, performing the two resolutions of
resolveMarkers; when no node is visited the declarations are untouched. -/
def scanDecls (M : Module) : List Marker :=
  (scanList M).foldl (fun ds _ => resolveMarkers ds) M.decls

/-- The sequence of marker resolutions performed during the scan loop:
kernel-init then kernel-deinit for every visited node. -/
def scanTrace (M : Module) : List Marker :=
  (scanList M).flatMap fun _ => [Marker.init, Marker.deinit]

/-- KernelEntryFunctions: the pointer set built by the scan loop, holding
exactly the functions classified by IsKernelEntry. Membership is by
function identity; the scan inserts each classified function once, in
stored function order, which is the iteration order of the inline
representation of the set. -/
def KernelEntryFunctions (M : Module) : List Func :=
  M.functions.filter fun F => IsKernelEntry M F

/-- The function identities in the kernel entry set. -/
def kernelEntryIds (M : Module) : List Nat :=
  (KernelEntryFunctions M).map fun F => F.id

/-- The attribute kind added by addFnAttr. The source calls addFnAttr with
the kind left unspecified; a fixed kind stands for it. -/
def theAttr : String := "amdgpu-attribute"

/-- Function addFnAttr: adds the attribute kind to the attribute set;
attribute lists keep each kind at most once, so adding a present kind
leaves the set unchanged. -/
def addFnAttr (attrs : List String) : List String :=
  if theAttr ∈ attrs then attrs else attrs ++ [theAttr]

/-- The diagnostic line printed for one annotated function. -/
def diagLine (name : String) : String := "Kernel entry function " ++ name

/-- The observable outcome of one invocation of visitor: the mutated unit,
the diagnostic lines written to standard output in order, and the sequence
of marker resolutions performed. -/
structure RunResult where
  module : Module
  out : List String
  resolveTrace : List Marker
deriving DecidableEq, Repr

/-- visitor: the shared scan-and-annotate routine. Its scan loop visits
every node of the function list (the functions in stored order and the
marker declaration nodes, see scanList), runs the classification closure
on each (every invocation resolving the two marker declarations), collects
KernelEntryFunctions, and then, for each member of the set, prints one
diagnostic line and adds the function attribute. -/
def visitor (M : Module) : RunResult :=
  { module :=
      { M with
        functions := M.functions.map fun F =>
          if F.id ∈ kernelEntryIds M then { F with attrs := addFnAttr F.attrs }
          else F
        decls := scanDecls M }
    out := (KernelEntryFunctions M).map fun F => diagLine F.name
    resolveTrace := scanTrace M }

/-- The analyses-preserved report of the new pass manager. -/
inductive PreservedAnalyses
  | none
  | all
deriving DecidableEq, Repr

/-- New pass manager adapter, AMDGPUAttributePass run: calls visitor on the
unit and reports that no analyses are preserved. -/
def run (M : Module) : RunResult × PreservedAnalyses :=
  (visitor M, PreservedAnalyses.none)

/-- AMDGPUAttributePass isRequired: always true, so the pass runs even on
functions marked optnone. -/
def isRequired : Bool := true

/-- Legacy pass manager adapter, LegacyAMDGPUAttributePass runOnModule:
calls visitor on the unit and returns true (unit modified). -/
def runOnModule (M : Module) : RunResult × Bool :=
  (visitor M, true)

/-- Written from the claim wording, not from the source: a function with
the given id directly calls the marker when some use-edge of the marker
declaration has as user a call instruction inside that function whose
callee operand is this use. The source never performs this check. -/
def specDirectCall (uses : List User) (fid : Nat) : Bool :=
  uses.any fun u =>
    match u with
    | User.instr p c => p == fid && c
    | User.nonInstr => false

/-- Keep only the use-edges whose user is an instruction. -/
def isInstrUser : User → Bool
  | User.instr _ _ => true
  | User.nonInstr => false

/-- The unit with every use-edge whose user is not an instruction removed
from both marker use lists. -/
def stripNonInstr (M : Module) : Module :=
  { M with
    initUses := M.initUses.filter isInstrUser
    deinitUses := M.deinitUses.filter isInstrUser }

/-! Concrete units used as inputs of witnesses and counterexamples. -/

/-- A function that both calls kernel-deinit and stores the address of
kernel-init (an instruction use that is not a call). -/
def fF : Func := { id := 0, name := "F", attrs := [], calls := [1] }

/-- A helper function. -/
def fH : Func := { id := 1, name := "H", attrs := [], calls := [] }

/-- Function A of the concrete scenario. -/
def fA : Func := { id := 0, name := "A", attrs := [], calls := [] }

/-- Function B of the concrete scenario. -/
def fB : Func := { id := 1, name := "B", attrs := [], calls := [] }

/-- Function C of the concrete scenario. -/
def fC : Func := { id := 2, name := "C", attrs := [], calls := [] }

/-- A unit whose only function holds a non-call instruction use of the
kernel-init declaration (for example a store of its address) and a direct
call of kernel-deinit. -/
def MC1 : Module :=
  { functions := [fF]
    initUses := [User.instr 0 false]
    deinitUses := [User.instr 0 true]
    decls := [Marker.init, Marker.deinit] }

/-- A unit whose only function A directly calls both markers. -/
def MC3 : Module :=
  { functions := [fA]
    initUses := [User.instr 0 true]
    deinitUses := [User.instr 0 true]
    decls := [Marker.init, Marker.deinit] }

/-- A unit with F (non-call instruction use of kernel-init, direct call of
kernel-deinit, and a direct call of the helper H) and H (direct calls of
both markers). -/
def MC4 : Module :=
  { functions := [fF, fH]
    initUses := [User.instr 0 false, User.instr 1 true]
    deinitUses := [User.instr 0 true, User.instr 1 true]
    decls := [Marker.init, Marker.deinit] }

/-- A unit with F calling only the helper H, and H directly calling both
markers; F holds no use of either marker. -/
def MW4 : Module :=
  { functions := [fF, fH]
    initUses := [User.instr 1 true]
    deinitUses := [User.instr 1 true]
    decls := [Marker.init, Marker.deinit] }

/-- The concrete scenario of the spec: A calls kernel-init and
kernel-deinit, B calls kernel-init only, C calls neither. -/
def MC5 : Module :=
  { functions := [fA, fB, fC]
    initUses := [User.instr 0 true, User.instr 1 true]
    deinitUses := [User.instr 0 true]
    decls := [Marker.init, Marker.deinit] }

/-- A unit with two functions, no marker uses, and the marker declarations
initially absent. -/
def MC7 : Module :=
  { functions := [fA, fB]
    initUses := []
    deinitUses := []
    decls := [] }

/-! Helper lemmas. -/

/-- Removing the use-edges whose user is not an instruction does not change
the use-edge loop of IsKernelEntry. -/
theorem hasInstrUse_filter (us : List User) (fid : Nat) :
    hasInstrUse (us.filter isInstrUser) fid = hasInstrUse us fid := by
  induction us with
  | nil => rfl
  | cons u t ih =>
      cases u with
      | instr p c =>
          simp only [hasInstrUse, List.filter_cons, isInstrUser, if_pos,
            List.any_cons] at ih ⊢
          rw [ih]
      | nonInstr =>
          simp only [hasInstrUse, List.filter_cons, isInstrUser,
            Bool.false_eq_true, if_neg, List.any_cons] at ih ⊢
          simpa using ih

/-- A function id is in the kernel entry set exactly when some function of
the unit carries that id and both use-edge flags hold for it; the flags
depend only on the id. -/
theorem mem_kernelEntryIds_iff (M : Module) (n : Nat) :
    n ∈ kernelEntryIds M ↔
      (∃ G ∈ M.functions, G.id = n) ∧
        hasInstrUse M.initUses n = true ∧ hasInstrUse M.deinitUses n = true := by
  constructor
  · intro h
    rcases List.mem_map.mp h with ⟨G, hG, hid⟩
    rcases List.mem_filter.mp hG with ⟨hGmem, hGcls⟩
    simp only [IsKernelEntry, Bool.and_eq_true] at hGcls
    subst hid
    exact ⟨⟨G, hGmem, rfl⟩, hGcls.1, hGcls.2⟩
  · rintro ⟨⟨G, hGmem, hid⟩, h1, h2⟩
    subst hid
    refine List.mem_map.mpr ⟨G, List.mem_filter.mpr ⟨hGmem, ?_⟩, rfl⟩
    simp only [IsKernelEntry, Bool.and_eq_true]
    exact ⟨h1, h2⟩

/-- Membership form of the classification characterization for a function
of the unit. -/
theorem mem_kernelEntryIds (M : Module) (F : Func) (hF : F ∈ M.functions) :
    F.id ∈ kernelEntryIds M ↔
      hasInstrUse M.initUses F.id = true ∧ hasInstrUse M.deinitUses F.id = true := by
  rw [mem_kernelEntryIds_iff]
  constructor
  · intro h
    exact h.2
  · intro h
    exact ⟨⟨F, hF, rfl⟩, h⟩

/-- The added attribute kind is present after addFnAttr. -/
theorem theAttr_mem_addFnAttr (attrs : List String) : theAttr ∈ addFnAttr attrs := by
  by_cases h : theAttr ∈ attrs
  · simp only [addFnAttr, if_pos h]
    exact h
  · simp [addFnAttr, h]

/-- addFnAttr is idempotent. -/
theorem addFnAttr_idem (attrs : List String) :
    addFnAttr (addFnAttr attrs) = addFnAttr attrs := by
  unfold addFnAttr
  by_cases h : theAttr ∈ attrs
  · simp [h]
  · simp [h]

/-- Each marker is declared after resolveMarkers. -/
theorem mem_resolveMarkers (ds : List Marker) (m : Marker) :
    m ∈ resolveMarkers ds := by
  unfold resolveMarkers getOrCreateRuntimeFunction
  cases m with
  | init =>
      by_cases h1 : Marker.init ∈ ds
      · by_cases h2 : Marker.deinit ∈ (if Marker.init ∈ ds then ds else ds ++ [Marker.init]) <;>
          simp_all
      · by_cases h2 : Marker.deinit ∈ (if Marker.init ∈ ds then ds else ds ++ [Marker.init]) <;>
          simp_all
  | deinit =>
      by_cases h2 : Marker.deinit ∈ (if Marker.init ∈ ds then ds else ds ++ [Marker.init]) <;>
        simp_all

/-- Resolving on a list already holding both markers changes nothing. -/
theorem resolveMarkers_eq_of_mem (ds : List Marker)
    (h1 : Marker.init ∈ ds) (h2 : Marker.deinit ∈ ds) :
    resolveMarkers ds = ds := by
  simp [resolveMarkers, getOrCreateRuntimeFunction, h1, h2]

/-- resolveMarkers is idempotent. -/
theorem resolveMarkers_idem (ds : List Marker) :
    resolveMarkers (resolveMarkers ds) = resolveMarkers ds :=
  resolveMarkers_eq_of_mem _ (mem_resolveMarkers ds Marker.init)
    (mem_resolveMarkers ds Marker.deinit)

/-- Folding further resolutions over any list keeps a resolved list
fixed. -/
theorem foldl_resolveMarkers_fixed {α : Type} (l : List α) (ds : List Marker) :
    l.foldl (fun acc _ => resolveMarkers acc) (resolveMarkers ds) = resolveMarkers ds := by
  induction l with
  | nil => rfl
  | cons a t ih =>
      simp only [List.foldl_cons, resolveMarkers_idem]
      exact ih

/-- A single resolution on a nonempty node list. -/
theorem foldl_resolveMarkers_cons {α : Type} (a : α) (l : List α) (ds : List Marker) :
    (a :: l).foldl (fun acc _ => resolveMarkers acc) ds = resolveMarkers ds := by
  simp only [List.foldl_cons]
  exact foldl_resolveMarkers_fixed l ds

/-- The resolved declaration list is never empty. -/
theorem resolveMarkers_isEmpty (ds : List Marker) :
    (resolveMarkers ds).isEmpty = false := by
  have hmem := mem_resolveMarkers ds Marker.init
  cases h : resolveMarkers ds with
  | nil =>
      rw [h] at hmem
      exact absurd hmem (List.not_mem_nil _)
  | cons a t => rfl

/-- The declaration list after the scan: unchanged when the loop visits no
node (no functions and no marker declarations), a single resolution of
both markers otherwise. -/
theorem scanDecls_eq (M : Module) :
    scanDecls M =
      if M.functions.isEmpty && M.decls.isEmpty then M.decls
      else resolveMarkers M.decls := by
  unfold scanDecls scanList
  cases hf : M.functions with
  | nil =>
      cases hd : M.decls with
      | nil => rfl
      | cons d t =>
          rw [if_neg (by simp)]
          have hne : resolveMarkers (d :: t) ≠ [] := by
            intro h
            have hmem := mem_resolveMarkers (d :: t) Marker.init
            rw [h] at hmem
            exact List.not_mem_nil _ hmem
          obtain ⟨a, l', hl⟩ := List.exists_cons_of_ne_nil hne
          rw [List.map_nil, List.nil_append, hl, List.map_cons, ← hl,
            foldl_resolveMarkers_cons]
  | cons F fs =>
      rw [if_neg (by simp)]
      rw [List.map_cons, List.cons_append, foldl_resolveMarkers_cons]

/-- The number of nodes the scan loop visits. -/
theorem scanList_length (M : Module) :
    (scanList M).length =
      if M.functions.isEmpty && M.decls.isEmpty then 0
      else M.functions.length + (resolveMarkers M.decls).length := by
  unfold scanList
  cases hf : M.functions with
  | nil =>
      cases hd : M.decls with
      | nil => rfl
      | cons d t => simp
  | cons F fs =>
      simp
      omega

/-- Filtering on a predicate of the function id commutes with mapping an
id-preserving transformation, for any projection the transformation
preserves. -/
theorem map_proj_filter_map {β : Type} (π : Func → β) (g : Func → Func)
    (p : Nat → Bool) (hid : ∀ F, (g F).id = F.id) (hπ : ∀ F, π (g F) = π F)
    (l : List Func) :
    ((l.map g).filter (fun F => p F.id)).map π
      = (l.filter (fun F => p F.id)).map π := by
  induction l with
  | nil => rfl
  | cons a t ih =>
      simp only [List.map_cons, List.filter_cons, hid]
      cases hpa : p a.id with
      | false => simp [ih]
      | true => simp [hπ, ih]

/-- One visitor run does not change the classification of any function:
the use lists of the unit are untouched. -/
theorem isKernelEntry_visitor (M : Module) (F : Func) :
    IsKernelEntry (visitor M).module F = IsKernelEntry M F := rfl

/-- The annotating transformation applied by visitor preserves function
ids. -/
theorem annot_id (M : Module) (F : Func) :
    (if F.id ∈ kernelEntryIds M then { F with attrs := addFnAttr F.attrs }
      else F).id = F.id := by
  by_cases h : F.id ∈ kernelEntryIds M <;> simp [h]

/-- The annotating transformation applied by visitor preserves function
names. -/
theorem annot_name (M : Module) (F : Func) :
    (if F.id ∈ kernelEntryIds M then { F with attrs := addFnAttr F.attrs }
      else F).name = F.name := by
  by_cases h : F.id ∈ kernelEntryIds M <;> simp [h]

/-- A visitor run does not change the kernel entry set of the unit. -/
theorem kernelEntryIds_visitor (M : Module) :
    kernelEntryIds (visitor M).module = kernelEntryIds M :=
  map_proj_filter_map (fun F => F.id)
    (fun F => if F.id ∈ kernelEntryIds M then { F with attrs := addFnAttr F.attrs } else F)
    (fun n => hasInstrUse M.initUses n && hasInstrUse M.deinitUses n)
    (annot_id M) (annot_id M) M.functions

/-- The second visitor run prints exactly the diagnostic lines of the
first. -/
theorem out_visitor_visitor (M : Module) :
    (visitor (visitor M).module).out = (visitor M).out :=
  map_proj_filter_map (fun F => diagLine F.name)
    (fun F => if F.id ∈ kernelEntryIds M then { F with attrs := addFnAttr F.attrs } else F)
    (fun n => hasInstrUse M.initUses n && hasInstrUse M.deinitUses n)
    (annot_id M)
    (fun F => congrArg diagLine (annot_name M F))
    M.functions

/-- The second visitor run leaves the unit exactly as the first left it. -/
theorem visitor_module_idem (M : Module) :
    (visitor (visitor M).module).module = (visitor M).module := by
  ext1
  case functions =>
    show ((M.functions.map _).map _) = M.functions.map _
    rw [List.map_map]
    refine List.map_congr_left ?_
    intro F hF
    show (if ((if F.id ∈ kernelEntryIds M then { F with attrs := addFnAttr F.attrs } else F)).id
        ∈ kernelEntryIds (visitor M).module then _ else _) = _
    rw [annot_id M F, kernelEntryIds_visitor M]
    by_cases h : F.id ∈ kernelEntryIds M
    · simp only [if_pos h, addFnAttr_idem]
    · simp only [if_neg h]
  case initUses => rfl
  case deinitUses => rfl
  case decls =>
    show scanDecls (visitor M).module = scanDecls M
    by_cases h : (M.functions.isEmpty && M.decls.isEmpty) = true
    · rw [Bool.and_eq_true] at h
      have hf : M.functions = [] := List.isEmpty_iff.mp h.1
      have hd : M.decls = [] := List.isEmpty_iff.mp h.2
      simp [visitor, scanDecls, scanList, hf, hd]
    · have hd1 : scanDecls M = resolveMarkers M.decls := by
        rw [scanDecls_eq, if_neg h]
      have hdm : (visitor M).module.decls = resolveMarkers M.decls := hd1
      rw [scanDecls_eq, hdm, hd1]
      simp [resolveMarkers_isEmpty, resolveMarkers_idem]

/-- The diagnostic line determines the function name. -/
theorem diagLine_injective : Function.Injective diagLine := by
  intro a b h
  have hd := congrArg String.data h
  simp only [diagLine, String.data_append] at hd
  exact String.ext (List.append_cancel_left hd)

/-- The resolution sequence of a scan holds one resolution of the given
marker per visited node. -/
theorem count_marker_flatMap {α : Type} (l : List α) (m : Marker) :
    (l.flatMap fun _ => [Marker.init, Marker.deinit]).count m = l.length := by
  induction l with
  | nil => cases m <;> rfl
  | cons a t ih =>
      simp only [List.flatMap_cons, List.count_append, ih, List.length_cons]
      cases m <;> simp [List.count_cons, Nat.add_comm]

/-! Claim theorems. -/

/-- C1 counterexample: in unit MC1 the only function is classified as a
kernel entry although it has no direct call of the kernel-init marker (its
only kernel-init use-edge is a non-call instruction use), so the claimed
equivalence with having at least one direct call of each marker fails. -/
theorem C1_counterexample :
    fF.id ∈ kernelEntryIds MC1 ∧ specDirectCall MC1.initUses fF.id = false := by
  decide

/-- C1 (amended): a function of the unit is placed in the kernel entry set
iff the kernel-init declaration has at least one use-edge whose user is an
instruction inside the function and likewise the kernel-deinit declaration;
any instruction use-edge counts, not only direct calls. -/
theorem C1_kernel_entry_iff_instr_uses (M : Module) (F : Func)
    (hF : F ∈ M.functions) :
    F.id ∈ kernelEntryIds M ↔
      hasInstrUse M.initUses F.id = true ∧ hasInstrUse M.deinitUses F.id = true :=
  mem_kernelEntryIds M F hF

/-- C1 witness: the amended equivalence evaluated on the concrete unit
MC3 at its function A. -/
theorem C1_witness :
    fA.id ∈ kernelEntryIds MC3 ↔
      hasInstrUse MC3.initUses fA.id = true ∧ hasInstrUse MC3.deinitUses fA.id = true :=
  C1_kernel_entry_iff_instr_uses MC3 fA (by decide)

/-- C2: on every unit the legacy adapter runOnModule and the modern adapter
run produce the same observable outcome (same mutated unit, same diagnostic
lines, same resolutions); both invoke the shared routine visitor. -/
theorem C2_adapters_agree (M : Module) : (run M).1 = (runOnModule M).1 := rfl

/-- C3 counterexample: on unit MC3 the second run of the scan-and-annotate
sequence prints exactly the diagnostic line of the first run again, so the
second run does emit a duplicate diagnostic line. -/
theorem C3_counterexample :
    (visitor (visitor MC3).module).out = (visitor MC3).out ∧
      (visitor MC3).out = [diagLine "A"] :=
  ⟨out_visitor_visitor MC3, rfl⟩

/-- C3 (amended): a second run on the processed unit yields the same kernel
entry set and leaves the unit exactly as the first run left it (in
particular no attribute is duplicated), but it re-emits the same diagnostic
lines instead of staying silent. -/
theorem C3_second_run (M : Module) :
    kernelEntryIds (visitor M).module = kernelEntryIds M ∧
      (visitor (visitor M).module).module = (visitor M).module ∧
      (visitor (visitor M).module).out = (visitor M).out :=
  ⟨kernelEntryIds_visitor M, visitor_module_idem M, out_visitor_visitor M⟩

/-- C4 counterexample: in unit MC4 function F does not directly call both
markers (it has no direct call of kernel-init) and directly calls the
helper H, which directly calls both markers; the claim then demands that F
be excluded, yet F is classified, because its non-call instruction use of
kernel-init counts. -/
theorem C4_counterexample :
    ¬(specDirectCall MC4.initUses fF.id = true ∧
        specDirectCall MC4.deinitUses fF.id = true) ∧
      fH ∈ MC4.functions ∧ fH.id ∈ fF.calls ∧
      specDirectCall MC4.initUses fH.id = true ∧
      specDirectCall MC4.deinitUses fH.id = true ∧
      fF.id ∈ kernelEntryIds MC4 := by
  decide

/-- C4 (amended): a function lacking an instruction use-edge of one of the
two markers inside its own body is never classified, even when it directly
calls a helper that directly calls both markers: classification is an
intra-function check over the marker use-edges and never follows transitive
call chains. -/
theorem C4_no_transitive_classification (M : Module) (F H : Func)
    (_hH : H ∈ M.functions) (_hcall : H.id ∈ F.calls)
    (_hHinit : specDirectCall M.initUses H.id = true)
    (_hHdeinit : specDirectCall M.deinitUses H.id = true)
    (hFself : ¬(hasInstrUse M.initUses F.id = true ∧
      hasInstrUse M.deinitUses F.id = true)) :
    F.id ∉ kernelEntryIds M := by
  intro hmem
  exact hFself ((mem_kernelEntryIds_iff M F.id).mp hmem).2

/-- C4 witness: in unit MW4, F calls only the helper H, H directly calls
both markers, and F is not classified. -/
theorem C4_witness : fF.id ∉ kernelEntryIds MW4 :=
  C4_no_transitive_classification MW4 fF fH (by decide) (by decide) (by decide)
    (by decide) (by decide)

/-- C5: a function of the unit outside the kernel entry set is left in the
unit entirely unchanged (same attribute set), and every diagnostic line of
the run names a member of the kernel entry set. -/
theorem C5_frame (M : Module) (F : Func) (hF : F ∈ M.functions)
    (hnot : F.id ∉ kernelEntryIds M) :
    F ∈ (visitor M).module.functions ∧
      ∀ line ∈ (visitor M).out,
        ∃ G, G ∈ KernelEntryFunctions M ∧ line = diagLine G.name := by
  constructor
  · refine List.mem_map.mpr ⟨F, hF, ?_⟩
    show (if F.id ∈ kernelEntryIds M then { F with attrs := addFnAttr F.attrs }
      else F) = F
    rw [if_neg hnot]
  · intro line hline
    rcases List.mem_map.mp hline with ⟨G, hG, hdiag⟩
    exact ⟨G, hG, hdiag.symm⟩

/-- C5 witness: in the concrete A, B, C scenario unit MC5, function C
(calling neither marker) is preserved unchanged by the run. -/
theorem C5_witness : fC ∈ (visitor MC5).module.functions :=
  (C5_frame MC5 fC (by decide) (by decide)).1

/-- C6: the legacy adapter reports the unit as modified on every input
unit, including units where nothing was classified or annotated. -/
theorem C6_legacy_always_modified (M : Module) : (runOnModule M).2 = true := rfl

/-- C7 counterexample: on the two-function unit MC7 with the markers
initially undeclared, the run resolves each marker declaration four times,
once per visited node: the scan visits the two functions and then the two
marker declaration nodes created during its first iteration. The claimed
single up-front resolution per marker is therefore false. -/
theorem C7_counterexample :
    (visitor MC7).resolveTrace.count Marker.init = 4 ∧
      (visitor MC7).resolveTrace.count Marker.deinit = 4 := by
  decide

/-- C7 (amended): the scanner resolves each marker once per classification
query, inside the classification closure, that is once per node the scan
loop visits: every function of the unit plus the marker declaration nodes
themselves (present beforehand or created and appended during the first
iteration), and zero times on a unit with no functions and no marker
declarations; resolution is idempotent, so every query uses the same two
resolved declarations and the net effect on the declaration list equals a
single up-front resolution of the two markers whenever any node is
scanned. -/
theorem C7_resolution_count (M : Module) :
    (visitor M).resolveTrace.count Marker.init = (scanList M).length ∧
      (visitor M).resolveTrace.count Marker.deinit = (scanList M).length ∧
      (scanList M).length =
        (if M.functions.isEmpty && M.decls.isEmpty then 0
          else M.functions.length + (resolveMarkers M.decls).length) ∧
      (visitor M).module.decls =
        (if M.functions.isEmpty && M.decls.isEmpty then M.decls
          else resolveMarkers M.decls) :=
  ⟨count_marker_flatMap (scanList M) Marker.init,
    count_marker_flatMap (scanList M) Marker.deinit,
    scanList_length M, scanDecls_eq M⟩

/-- C8: in a unit whose function names are distinct (as in real IR units),
the run prints exactly one diagnostic line naming each classified function
and no line naming an unclassified function. -/
theorem C8_one_diagnostic_per_entry (M : Module) (F : Func)
    (hnames : (M.functions.map fun G => G.name).Nodup)
    (hF : F ∈ M.functions) :
    (visitor M).out.count (diagLine F.name) =
      if F.id ∈ kernelEntryIds M then 1 else 0 := by
  have hsub : List.Sublist ((KernelEntryFunctions M).map fun G => G.name)
      (M.functions.map fun G => G.name) :=
    (List.filter_sublist _).map _
  have hnd : ((KernelEntryFunctions M).map fun G => G.name).Nodup :=
    hnames.sublist hsub
  have hout : (visitor M).out
      = ((KernelEntryFunctions M).map fun G => G.name).map diagLine := by
    show ((KernelEntryFunctions M).map fun G => diagLine G.name) = _
    rw [List.map_map]
    rfl
  have hcnt : (visitor M).out.count (diagLine F.name)
      = ((KernelEntryFunctions M).map fun G => G.name).count F.name := by
    rw [hout]
    exact List.count_map_of_injective _ diagLine diagLine_injective F.name
  rw [hcnt]
  by_cases hmem : F.id ∈ kernelEntryIds M
  · rw [if_pos hmem]
    have hflags := (mem_kernelEntryIds M F hF).mp hmem
    have hFin : F ∈ KernelEntryFunctions M := by
      refine List.mem_filter.mpr ⟨hF, ?_⟩
      simp only [IsKernelEntry, Bool.and_eq_true]
      exact hflags
    exact List.count_eq_one_of_mem hnd (List.mem_map.mpr ⟨F, hFin, rfl⟩)
  · rw [if_neg hmem]
    apply List.count_eq_zero_of_not_mem
    intro hname
    rcases List.mem_map.mp hname with ⟨G, hG, heq⟩
    have hGfun : G ∈ M.functions := List.mem_of_mem_filter hG
    have hGF : G = F := List.inj_on_of_nodup_map hnames hGfun hF heq
    exact hmem (List.mem_map.mpr ⟨F, hGF ▸ hG, rfl⟩)

/-- C8 witness: in the concrete A, B, C scenario unit MC5, the run prints
exactly one line naming A (classified) and no line naming B (calls
kernel-init only). -/
theorem C8_witness :
    ((visitor MC5).out.count (diagLine fA.name) =
        if fA.id ∈ kernelEntryIds MC5 then 1 else 0) ∧
      ((visitor MC5).out.count (diagLine fB.name) =
        if fB.id ∈ kernelEntryIds MC5 then 1 else 0) :=
  ⟨C8_one_diagnostic_per_entry MC5 fA (by decide) (by decide),
    C8_one_diagnostic_per_entry MC5 fB (by decide) (by decide)⟩

/-- C10: use-edges whose user is not an instruction never contribute to
classification: removing every such use-edge from both marker use lists
changes neither the kernel entry set nor the diagnostic lines. -/
theorem C10_non_instruction_uses_irrelevant (M : Module) :
    KernelEntryFunctions (stripNonInstr M) = KernelEntryFunctions M ∧
      (visitor (stripNonInstr M)).out = (visitor M).out := by
  have hkef : KernelEntryFunctions (stripNonInstr M) = KernelEntryFunctions M := by
    unfold KernelEntryFunctions
    show M.functions.filter _ = M.functions.filter _
    refine List.filter_congr ?_
    intro F hF
    show IsKernelEntry (stripNonInstr M) F = IsKernelEntry M F
    show (hasInstrUse (M.initUses.filter isInstrUser) F.id &&
        hasInstrUse (M.deinitUses.filter isInstrUser) F.id) = _
    rw [hasInstrUse_filter, hasInstrUse_filter]
    rfl
  refine ⟨hkef, ?_⟩
  show ((KernelEntryFunctions (stripNonInstr M)).map fun F => diagLine F.name) = _
  rw [hkef]
  rfl

end AMDGPU
